import Mathlib

/-!
Shallow embedding of the boxcut panel-layout engine
(src/common/mod.rs and src/common/square.rs).
Coordinates (Rust f64) are modelled as exact rationals; the code uses only
addition, subtraction, multiplication by -1 and comparison on them.
-/

namespace Boxcut

/-- Embeds `Origin` (src/common/mod.rs): which corner of a rectangle an
anchor point designates. -/
inductive Origin where
  | TopLeft
  | TopRight
  | BottomRight
  | BottomLeft
deriving DecidableEq

/-- Embeds `Square` (src/common/square.rs): a width/height pair.
Field order (h then w) follows the Rust struct. -/
@[ext]
structure Square where
  h : ℚ
  w : ℚ
deriving DecidableEq

/-- Embeds `Square::new(w, h)`. -/
def Square.new (w h : ℚ) : Square := { h := h, w := w }

/-- Embeds `Point` (src/common/mod.rs): a 2D position tagged with a corner. -/
@[ext]
structure Point where
  x : ℚ
  y : ℚ
  origin : Origin
deriving DecidableEq

/-- Embeds `Point::new`. -/
def Point.new (x y : ℚ) : Point := { x := x, y := y, origin := Origin.TopLeft }

/-- Embeds `Point::shift_xy`. -/
def Point.shift_xy (p : Point) (delta_x delta_y : ℚ) : Point :=
  { x := p.x + delta_x, y := p.y + delta_y, origin := p.origin }

/-- Embeds `Point::shift_x`. -/
def Point.shift_x (p : Point) (delta_x : ℚ) : Point :=
  { x := p.x + delta_x, y := p.y, origin := p.origin }

/-- Embeds `Point::shift_y`. -/
def Point.shift_y (p : Point) (delta_y : ℚ) : Point :=
  { x := p.x, y := p.y + delta_y, origin := p.origin }

/-- Embeds `Point::origin(origin)`, the corner re-tagging method (named
`setOrigin` here because the field accessor already uses the name). -/
def Point.setOrigin (p : Point) (origin : Origin) : Point :=
  { x := p.x, y := p.y, origin := origin }

/-- Embeds `Point::align_top_left(square)`. -/
def Point.align_top_left (p : Point) (square : Square) : Point :=
  match p.origin with
  | Origin.TopLeft => p
  | Origin.TopRight => (p.shift_x (square.w * (-1))).setOrigin Origin.TopLeft
  | Origin.BottomRight =>
      (p.shift_xy (square.w * (-1)) (square.h * (-1))).setOrigin Origin.TopLeft
  | Origin.BottomLeft => (p.shift_y (square.h * (-1))).setOrigin Origin.TopLeft

/-- Embeds `Point::update_max(input)`; the Rust method mutates `self`,
modelled here as returning the updated point. -/
def Point.update_max (p input : Point) : Point :=
  { x := if p.x < input.x then input.x else p.x,
    y := if p.y < input.y then input.y else p.y,
    origin := p.origin }

/-- Embeds `CutType` (src/common/mod.rs). -/
inductive CutType where
  | Nope
  | Cut
  | Bend
deriving DecidableEq

/-- Embeds `CutType::dont_cut`. -/
def CutType.dont_cut : CutType → Bool
  | CutType.Nope => true
  | _ => false

/-- Embeds the svg `Path` value produced by `path_for`: stroke styling plus
the one `move_to`/`line_to` pair of its `Data`. -/
@[ext]
structure Path where
  fill : String
  stroke : String
  strokeWidth : ℚ
  move : ℚ × ℚ
  line : ℚ × ℚ
deriving DecidableEq

/-- Embeds `path_for(tp, data)` (src/common/mod.rs). -/
def path_for (tp : CutType) (moveP lineP : ℚ × ℚ) : Path :=
  let stroke :=
    match tp with
    | CutType.Nope => "white"
    | CutType.Cut => "black"
    | CutType.Bend => "green"
  { fill := "none", stroke := stroke, strokeWidth := (0.2 : ℚ),
    move := moveP, line := lineP }

/-- Embeds `draw_line(from, to, tp)` (src/common/mod.rs). -/
def draw_line (fromP toP : Point) (tp : CutType) : Option Path :=
  if tp.dont_cut then none
  else some (path_for tp (fromP.x, fromP.y) (toP.x, toP.y))

/-- Embeds `DEFAULT_FILE_NAME`. -/
def DEFAULT_FILE_NAME : String := "LaserCutBox.svg"

/-- Embeds `DrawResult` (src/common/mod.rs). -/
@[ext]
structure DrawResult where
  default_file_name : String
  paths : List Path
  max : Point
deriving DecidableEq

/-- Embeds `DrawResult::new`. -/
def DrawResult.new (paths : List Path) (max : Point) : DrawResult :=
  { default_file_name := DEFAULT_FILE_NAME, paths := paths, max := max }

/-- Embeds `DrawResult::append(other)`; the Rust method mutates `self`,
modelled here as returning the combined result. -/
def DrawResult.append (self other : DrawResult) : DrawResult :=
  { default_file_name := self.default_file_name,
    paths := self.paths ++ other.paths,
    max := self.max.update_max other.max }

/-- Embeds `Borders` (src/common/square.rs). -/
@[ext]
structure Borders where
  top : CutType
  right : CutType
  bottom : CutType
  left : CutType
deriving DecidableEq

/-- Embeds `Borders::new`. -/
def Borders.new (top right bottom left : CutType) : Borders :=
  { top := top, right := right, bottom := bottom, left := left }

/-- Embeds `Borders::new_cut`. -/
def Borders.new_cut : Borders :=
  Borders.new CutType.Cut CutType.Cut CutType.Cut CutType.Cut

/-- Embeds `Borders::new_bend`. -/
def Borders.new_bend : Borders :=
  Borders.new CutType.Bend CutType.Bend CutType.Bend CutType.Bend

/-- Embeds `Borders::nope`. -/
def Borders.nope : Borders :=
  Borders.new CutType.Nope CutType.Nope CutType.Nope CutType.Nope

/-- Embeds `SquareElement` (src/common/square.rs). -/
@[ext]
structure SquareElement where
  borders : Borders
  square : Square
deriving DecidableEq

/-- Embeds `SquareElement::mirror_vertical`. -/
def SquareElement.mirror_vertical (s : SquareElement) : SquareElement :=
  { s with borders := { s.borders with left := s.borders.right,
                                       right := s.borders.left } }

/-- Embeds `SquareElement::mirror_horisontal` (source spelling). -/
def SquareElement.mirror_horisontal (s : SquareElement) : SquareElement :=
  { s with borders := { s.borders with top := s.borders.bottom,
                                       bottom := s.borders.top } }

/-- Embeds `SquareElement::draw(offset)` (src/common/square.rs), the
straight-line walk top, right, bottom, left. -/
def SquareElement.draw (self : SquareElement) (offset : Point) : DrawResult :=
  let from0 := offset.align_top_left self.square
  let max0 := from0
  let to1 := from0.shift_xy self.square.w 0
  let p1 := draw_line from0 to1 self.borders.top
  let max1 := max0.update_max to1
  let to2 := to1.shift_xy 0 self.square.h
  let p2 := draw_line to1 to2 self.borders.right
  let max2 := max1.update_max to2
  let to3 := to2.shift_xy (self.square.w * (-1)) 0
  let p3 := draw_line to2 to3 self.borders.bottom
  let max3 := max2.update_max to3
  let to4 := to3.shift_xy 0 (self.square.h * (-1))
  let p4 := draw_line to3 to4 self.borders.left
  let max4 := max3.update_max to4
  DrawResult.new ([p1, p2, p3, p4].filterMap id) max4

/-- Number of renderable (Cut or Bend) edges in a border set. -/
def Borders.renderableCount (b : Borders) : Nat :=
  ([b.top, b.right, b.bottom, b.left].filter (fun t => !t.dont_cut)).length

/-- Spec-side definition (§8, C4): re-derive the original corner's position
from a resolved top-left point by adding back width and/or height as the
corner dictates. -/
def rederiveCorner (q : ℚ × ℚ) (c : Origin) (sq : Square) : ℚ × ℚ :=
  match c with
  | Origin.TopLeft => q
  | Origin.TopRight => (q.1 + sq.w, q.2)
  | Origin.BottomRight => (q.1 + sq.w, q.2 + sq.h)
  | Origin.BottomLeft => (q.1, q.2 + sq.h)

lemma Point.update_max_eq (p q : Point) :
    p.update_max q = { x := max p.x q.x, y := max p.y q.y, origin := p.origin } := by
  unfold Point.update_max
  ext
  · rcases lt_or_le p.x q.x with h | h
    · simp [h, max_eq_right h.le]
    · simp [h.not_lt, max_eq_left h]
  · rcases lt_or_le p.y q.y with h | h
    · simp [h, max_eq_right h.le]
    · simp [h.not_lt, max_eq_left h]
  · rfl

lemma draw_line_eq_some {fromP toP : Point} {tp : CutType} {p : Path}
    (h : draw_line fromP toP tp = some p) :
    p.move = (fromP.x, fromP.y) ∧ p.line = (toP.x, toP.y) := by
  unfold draw_line at h
  split at h
  · exact absurd h (by simp)
  · obtain rfl : path_for tp (fromP.x, fromP.y) (toP.x, toP.y) = p :=
      Option.some_injective _ h
    simp [path_for]

/-- C2: `Point::align_top_left` returns exactly the spec case split:
TopLeft is unchanged, TopRight subtracts width, BottomRight subtracts width
and height, BottomLeft subtracts height; the result is always re-tagged
TopLeft. -/
theorem align_top_left_cases (x y : ℚ) (sq : Square) :
    (Point.mk x y Origin.TopLeft).align_top_left sq = Point.mk x y Origin.TopLeft ∧
    (Point.mk x y Origin.TopRight).align_top_left sq =
      Point.mk (x - sq.w) y Origin.TopLeft ∧
    (Point.mk x y Origin.BottomRight).align_top_left sq =
      Point.mk (x - sq.w) (y - sq.h) Origin.TopLeft ∧
    (Point.mk x y Origin.BottomLeft).align_top_left sq =
      Point.mk x (y - sq.h) Origin.TopLeft := by
  refine ⟨rfl, ?_, ?_, ?_⟩ <;>
    · simp only [Point.align_top_left, Point.shift_x, Point.shift_xy, Point.shift_y,
        Point.setOrigin]
      ext <;> simp [sub_eq_add_neg]

/-- C4: resolving an anchor to top-left and then re-deriving the original
corner's position from that top-left and the dimensions recovers the
original coordinates exactly. -/
theorem align_top_left_roundtrip (p : Point) (sq : Square) :
    rederiveCorner ((p.align_top_left sq).x, (p.align_top_left sq).y) p.origin sq =
      (p.x, p.y) := by
  obtain ⟨x, y, c⟩ := p
  cases c <;>
    simp [rederiveCorner, Point.align_top_left, Point.shift_x, Point.shift_xy,
      Point.shift_y, Point.setOrigin]

/-- C7: both mirroring transforms are involutions: applying
`mirror_vertical` twice, or `mirror_horisontal` twice, returns the original
panel. -/
theorem mirror_involution (se : SquareElement) :
    se.mirror_vertical.mirror_vertical = se ∧
    se.mirror_horisontal.mirror_horisontal = se := by
  obtain ⟨⟨t, r, b, l⟩, sq⟩ := se
  exact ⟨rfl, rfl⟩

/-- C8: `mirror_vertical` swaps the left and right borders and leaves
the dimensions, top border and bottom border unchanged. -/
theorem mirror_vertical_swaps_left_right (se : SquareElement) :
    se.mirror_vertical.borders.left = se.borders.right ∧
    se.mirror_vertical.borders.right = se.borders.left ∧
    se.mirror_vertical.borders.top = se.borders.top ∧
    se.mirror_vertical.borders.bottom = se.borders.bottom ∧
    se.mirror_vertical.square = se.square :=
  ⟨rfl, rfl, rfl, rfl, rfl⟩

/-- C10: the point returned by `align_top_left` is tagged TopLeft in every
branch, and a point already tagged TopLeft is returned entirely
unchanged. -/
theorem align_top_left_origin_topleft (p : Point) (sq : Square) :
    (p.align_top_left sq).origin = Origin.TopLeft ∧
    ∀ x y : ℚ,
      (Point.mk x y Origin.TopLeft).align_top_left sq = Point.mk x y Origin.TopLeft := by
  refine ⟨?_, fun x y => rfl⟩
  obtain ⟨x, y, c⟩ := p
  cases c <;> rfl

/-- C1: for every dimension pair, border set and offset, `draw` emits
exactly as many paths as the border set has Cut or Bend edges (0 to 4),
and never one for a Nope edge. -/
theorem draw_emits_renderable_count (se : SquareElement) (offset : Point) :
    (se.draw offset).paths.length = se.borders.renderableCount ∧
    se.borders.renderableCount ≤ 4 := by
  obtain ⟨⟨t, r, b, l⟩, sq⟩ := se
  cases t <;> cases r <;> cases b <;> cases l <;>
    simp [SquareElement.draw, draw_line, CutType.dont_cut, Borders.renderableCount,
      DrawResult.new]

/-- C3: `draw` walks the rectangle clockwise from the resolved top-left p0
in the fixed order top, right, bottom, left with the stated endpoints, the
emitted paths appear in exactly this edge order, and the left edge's
destination returns exactly to p0. -/
theorem draw_clockwise_walk (se : SquareElement) (offset : Point) :
    (se.draw offset).paths =
      (let p0 := offset.align_top_left se.square
       let p1 := p0.shift_xy se.square.w 0
       let p2 := p1.shift_xy 0 se.square.h
       let p3 := p2.shift_xy (se.square.w * (-1)) 0
       let p4 := p3.shift_xy 0 (se.square.h * (-1))
       [draw_line p0 p1 se.borders.top, draw_line p1 p2 se.borders.right,
        draw_line p2 p3 se.borders.bottom,
        draw_line p3 p4 se.borders.left].filterMap id) ∧
    ((((offset.align_top_left se.square).shift_xy se.square.w 0).shift_xy 0
          se.square.h).shift_xy (se.square.w * (-1)) 0).shift_xy 0
        (se.square.h * (-1)) =
      offset.align_top_left se.square := by
  refine ⟨rfl, ?_⟩
  ext <;> simp [Point.shift_xy]

/-- C5: with non-negative dimensions, the bounding max returned by `draw`
is at least (w, h) greater in each axis than the resolved top-left,
regardless of border classes. -/
theorem draw_bounding_max_ge (se : SquareElement) (offset : Point)
    (_hw : 0 ≤ se.square.w) (_hh : 0 ≤ se.square.h) :
    (offset.align_top_left se.square).x + se.square.w ≤ (se.draw offset).max.x ∧
    (offset.align_top_left se.square).y + se.square.h ≤ (se.draw offset).max.y := by
  simp only [SquareElement.draw, Point.update_max_eq, Point.shift_xy, DrawResult.new]
  constructor <;> simp [le_max_iff]

/-- Witness for C5 at a concrete panel and anchor. -/
theorem draw_bounding_max_ge_witness :
    (0 : ℚ) ≤ (Square.new 100 50).w ∧ (0 : ℚ) ≤ (Square.new 100 50).h ∧
    (((Point.new 10 10).align_top_left (Square.new 100 50)).x +
          (Square.new 100 50).w ≤
        ((SquareElement.mk Borders.new_cut (Square.new 100 50)).draw
            (Point.new 10 10)).max.x ∧
      ((Point.new 10 10).align_top_left (Square.new 100 50)).y +
          (Square.new 100 50).h ≤
        ((SquareElement.mk Borders.new_cut (Square.new 100 50)).draw
            (Point.new 10 10)).max.y) :=
  ⟨by norm_num [Square.new], by norm_num [Square.new],
    draw_bounding_max_ge (SquareElement.mk Borders.new_cut (Square.new 100 50))
      (Point.new 10 10) (by norm_num [Square.new]) (by norm_num [Square.new])⟩

/-- C6: `append` concatenates the path lists in order and takes the
componentwise maximum of the bounding maxes; the bounding-max coordinates
are therefore symmetric in the two arguments, and `append` is
associative. -/
theorem append_order_and_bounding (A B C : DrawResult) :
    (A.append B).paths = A.paths ++ B.paths ∧
    (A.append B).max.x = max A.max.x B.max.x ∧
    (A.append B).max.y = max A.max.y B.max.y ∧
    (A.append B).max.x = (B.append A).max.x ∧
    (A.append B).max.y = (B.append A).max.y ∧
    (A.append B).append C = A.append (B.append C) := by
  refine ⟨rfl, ?_, ?_, ?_, ?_, ?_⟩
  · simp [DrawResult.append, Point.update_max_eq]
  · simp [DrawResult.append, Point.update_max_eq]
  · simp [DrawResult.append, Point.update_max_eq, max_comm]
  · simp [DrawResult.append, Point.update_max_eq, max_comm]
  · simp [DrawResult.append, Point.update_max_eq, max_assoc, List.append_assoc]

/-- C9: `draw` is total, and a zero-size panel yields zero-length paths
(move point equal to line point) for each renderable edge rather than
failing. -/
theorem draw_zero_size_degenerate (b : Borders) (offset : Point) :
    ∀ p ∈ ((SquareElement.mk b (Square.new 0 0)).draw offset).paths,
      p.move = p.line := by
  intro p hp
  simp only [SquareElement.draw, DrawResult.new, List.mem_filterMap, List.mem_cons,
    List.not_mem_nil, or_false, id_eq] at hp
  obtain ⟨a, hmem, ha⟩ := hp
  rcases hmem with rfl | rfl | rfl | rfl <;>
    · obtain ⟨hm, hl⟩ := draw_line_eq_some ha
      rw [hm, hl]
      simp [Point.shift_xy, Square.new]

/-- Witness for C9 at a concrete zero-size panel, anchor and emitted path. -/
theorem draw_zero_size_degenerate_witness :
    (path_for CutType.Cut (3, 4) (3, 4) ∈
        ((SquareElement.mk Borders.new_cut (Square.new 0 0)).draw
            (Point.new 3 4)).paths) ∧
    (path_for CutType.Cut (3, 4) (3, 4)).move =
      (path_for CutType.Cut (3, 4) (3, 4)).line :=
  ⟨by simp [SquareElement.draw, draw_line, CutType.dont_cut, Borders.new_cut,
      Borders.new, Square.new, Point.new, Point.shift_xy, Point.align_top_left,
      path_for, DrawResult.new],
    draw_zero_size_degenerate Borders.new_cut (Point.new 3 4)
      (path_for CutType.Cut (3, 4) (3, 4))
      (by simp [SquareElement.draw, draw_line, CutType.dont_cut, Borders.new_cut,
        Borders.new, Square.new, Point.new, Point.shift_xy, Point.align_top_left,
        path_for, DrawResult.new])⟩

end Boxcut
